import Mathlib

/-!
Verification of the asynchronous task/event subsystem of the `be0` backend:
the sliding-window queue rate limiter, the in-process event bus, the worker
server queue configuration, and the periodic-task scheduler.

Each Go function is shallowly embedded as a pure Lean function over explicit
state.  Redis sorted sets are modelled as finite sets of integer members
(scores coincide with members in this code, since the member added is the
same unix-second integer used as the score).  Third-party library calls
(the redis client, the asynq broker, the robfig cron parser) are passed in
as explicit function parameters, so theorems quantify over their behaviour.
-/

namespace Be0

/-! ## Rate limiter (`internal/queue/rate`, used by the task server)

`RateLimit.Window` is a Go `time.Duration`; the code uses
`int64(Window.Seconds())`, embedded here as an integer number of seconds.
`MaxJobs` is a Go `int`. -/

structure RateLimit where
  window : Int
  maxJobs : Int
deriving DecidableEq

structure QueueConfig where
  name : String
  rateLimit : RateLimit
deriving DecidableEq

structure QueueRateLimiter where
  config : QueueConfig
deriving DecidableEq

/-- State of one redis key `queue_rate_limit:<queue>:<identifier>`: the
sorted-set members (unix-second timestamps; the score of each member equals
the member itself, because `Allow` always calls `ZAdd` with
`Score: float64(now), Member: now`), together with the TTL last set by
`Expire` (in seconds), `none` if no expiration is set. -/
structure RLKeyState where
  members : Finset Int
  expire : Option Int
deriving DecidableEq

/-- `ZREMRANGEBYSCORE key lo hi`: removes every member whose score lies in
the closed interval `[lo, hi]`. -/
def zRemRangeByScore (s : Finset Int) (lo hi : Int) : Finset Int :=
  s.filter (fun t => ¬ (lo ≤ t ∧ t ≤ hi))

/-- `ZADD key {Score: now, Member: now}`: inserts the member (overwriting the
entry with the same member, which here carries the same score). -/
def zAdd (s : Finset Int) (now : Int) : Finset Int :=
  insert now s

/-- Embedding of `QueueRateLimiter.Allow` (rate.go).  The pipeline executes,
in order: `ZRemRangeByScore(key, "0", windowStart)`, `ZCard(key)`,
`ZAdd(key, {now, now})`, `Expire(key, Window*2)`; the returned boolean is
`count <= int64(MaxJobs)` where `count` is the `ZCard` result, i.e. the
cardinality after pruning and before the add. -/
def QueueRateLimiter.Allow (qrl : QueueRateLimiter) (now : Int) (st : RLKeyState) :
    Bool × RLKeyState :=
  let windowStart := now - qrl.config.rateLimit.window
  let pruned := zRemRangeByScore st.members 0 windowStart
  let count : Int := pruned.card
  let added := zAdd pruned now
  (decide (count ≤ qrl.config.rateLimit.maxJobs),
   ⟨added, some (2 * qrl.config.rateLimit.window)⟩)

/-- Repeated `Allow` calls against the same key, at the given sequence of
current times; returns the list of boolean results and the final key state. -/
def allowCalls (qrl : QueueRateLimiter) (times : List Int) (st : RLKeyState) :
    List Bool × RLKeyState :=
  match times with
  | [] => ([], st)
  | t :: ts =>
    let r := qrl.Allow t st
    let rest := allowCalls qrl ts r.2
    (r.1 :: rest.1, rest.2)

/-- The limiter of the testable property: window 1 second, max 3 jobs. -/
def sampleLimiter : QueueRateLimiter :=
  ⟨⟨("send"), ⟨1, 3⟩⟩⟩

/-- Claim C1: the spec requires that with window=1s and maxJobs=3, four calls
to `Allow` within the window return `[true, true, true, false]`, the result
being true iff the count before the add, plus the new entry, is ≤ maxJobs.
The code instead returns `count ≤ maxJobs` with `count` taken before the add,
and four calls in the same unix second collapse to a single set member, so
all four calls return `true`. -/
theorem allow_four_calls_within_window :
    (allowCalls sampleLimiter [100, 100, 100, 100] ⟨∅, none⟩).1
      = [true, true, true, true] ∧
    (allowCalls sampleLimiter [100, 100, 100, 100] ⟨∅, none⟩).1
      ≠ [true, true, true, false] := by
  constructor
  · decide
  · decide

/-- Claim C8: every `Allow` call removes all recorded entries strictly older
than `now - window` from the key (the pipeline removes scores in
`[0, now - window]`, and the freshly added member `now` is not older), and
sets the key expiration to twice the window. Timestamps recorded by the code
are unix seconds, hence nonnegative, which the per-entry hypothesis reflects
(`ZRemRangeByScore` is called with lower bound `"0"`). -/
theorem Allow_prunes_old_and_sets_expiry (qrl : QueueRateLimiter) (now : Int)
    (st : RLKeyState) (hw : 0 ≤ qrl.config.rateLimit.window) :
    (∀ t ∈ (qrl.Allow now st).2.members,
        0 ≤ t → ¬ t < now - qrl.config.rateLimit.window) ∧
    (qrl.Allow now st).2.expire = some (2 * qrl.config.rateLimit.window) := by
  constructor
  · intro t ht h0
    simp only [QueueRateLimiter.Allow, zAdd, zRemRangeByScore, Finset.mem_insert,
      Finset.mem_filter] at ht
    rcases ht with rfl | ⟨hmem, hpred⟩
    · omega
    · omega
  · rfl

/-- Witness for C8 at a concrete input: limiter with window 1 and maxJobs 3,
current time 100, key previously holding the single stale timestamp 50. -/
theorem Allow_prunes_old_and_sets_expiry_witness :
    ((0 : Int) ≤ sampleLimiter.config.rateLimit.window ∧
      (100 : Int) ∈ (sampleLimiter.Allow 100 ⟨{50}, none⟩).2.members ∧
      (0 : Int) ≤ 100 ∧
      ¬ (100 : Int) < 100 - sampleLimiter.config.rateLimit.window) ∧
    (sampleLimiter.Allow 100 ⟨{50}, none⟩).2.expire = some 2 :=
  ⟨⟨by decide, by decide, by decide,
    (Allow_prunes_old_and_sets_expiry sampleLimiter 100 ⟨{50}, none⟩ (by decide)).1
      100 (by decide) (by decide)⟩,
   (Allow_prunes_old_and_sets_expiry sampleLimiter 100 ⟨{50}, none⟩ (by decide)).2⟩

/-- Claim C10: the member added by `Allow` is the unix-second timestamp `now`
itself, so a second `Allow` call in the same second leaves the key's member
set unchanged (the `ZAdd` overwrites the existing member) and the recorded
count does not increase. -/
theorem Allow_same_second_no_growth (qrl : QueueRateLimiter) (now : Int)
    (st : RLKeyState) :
    (qrl.Allow now (qrl.Allow now st).2).2.members
        = (qrl.Allow now st).2.members ∧
    ((qrl.Allow now (qrl.Allow now st).2).2.members).card
        = ((qrl.Allow now st).2.members).card := by
  have hmem : (qrl.Allow now (qrl.Allow now st).2).2.members
      = (qrl.Allow now st).2.members := by
    simp only [QueueRateLimiter.Allow, zAdd, zRemRangeByScore]
    rw [Finset.filter_insert]
    split
    · rw [Finset.filter_filter]
      simp [Finset.insert_idem]
    · rw [Finset.filter_filter]
      simp
  exact ⟨hmem, by rw [hmem]⟩

/-! ## Event bus (`internal/events/events.go`)

Handlers (`EventHandler = func(interface{})`) are opaque values of a type
parameter `H`; their runtime behaviour — returning normally or panicking —
is supplied separately as a `run` function when needed.  The Go map
`map[string][]EventHandler` is embedded as `String → Option (List H)`
(`none` = key absent, so the `exists` check in `Emit` is faithful). -/

structure EventBus (H : Type) where
  handlers : String → Option (List H)

/-- `NewEventBus`: an empty handler registry. -/
def NewEventBus (H : Type) : EventBus H :=
  ⟨fun _ => none⟩

/-- `EventBus.On`: appends the handler to the (possibly absent, hence nil)
slice for the event; every other key is untouched. -/
def EventBus.On {H : Type} (bus : EventBus H) (event : String) (handler : H) :
    EventBus H :=
  ⟨fun e =>
    if e = event then some (((bus.handlers event).getD []) ++ [handler])
    else bus.handlers e⟩

/-- `EventBus.Emit`: looks the event up; if absent it returns at once having
spawned nothing, otherwise it spawns one goroutine per registered handler, in
registration order, each applied to the same `data`.  The first component is
the list of spawned handler invocations; the second is the registry after the
call — `Emit` only reads the map, so it is returned unchanged. -/
def EventBus.Emit {H D : Type} (bus : EventBus H) (event : String) (data : D) :
    List (H × D) × EventBus H :=
  match bus.handlers event with
  | none => ([], bus)
  | some hs => (hs.map (fun h => (h, data)), bus)

/-- Result of applying one handler to a payload: return normally or panic. -/
inductive HandlerResult where
  | ok : HandlerResult
  | panicked : String → HandlerResult
deriving DecidableEq

/-- Final state of one spawned handler goroutine. -/
inductive GoroutineOutcome where
  | completed : GoroutineOutcome
  | recovered : String → GoroutineOutcome
  | propagated : String → GoroutineOutcome
deriving DecidableEq

/-- Body of the goroutine `Emit` spawns per handler: it runs the handler
under a deferred `recover`, so a panic is caught and logged (`recovered`)
rather than escaping (`propagated`). -/
def goBody {H D : Type} (run : H → D → HandlerResult) (h : H) (d : D) :
    GoroutineOutcome :=
  match run h d with
  | .ok => .completed
  | .panicked m => .recovered m

/-- Claim C3: emitting an event with zero registered handlers spawns no
handler invocation and leaves the registry unchanged; `Emit` has no error
result at all.  Zero handlers means the key is absent from the map (the only
state `On` can produce for an unregistered event) or holds an empty slice. -/
theorem Emit_no_handlers_is_noop {H D : Type} (bus : EventBus H)
    (event : String) (data : D) :
    (bus.handlers event = none → bus.Emit event data = ([], bus)) ∧
    (bus.handlers event = some [] → bus.Emit event data = ([], bus)) := by
  constructor
  · intro h
    simp [EventBus.Emit, h]
  · intro h
    simp [EventBus.Emit, h]

/-- Witness for C3: a fresh bus has no handlers for event `team.created`,
and emitting payload `0` spawns nothing and changes nothing. -/
theorem Emit_no_handlers_is_noop_witness :
    (NewEventBus Nat).Emit ("team.created") (0 : Nat)
      = ([], NewEventBus Nat) :=
  (Emit_no_handlers_is_noop (NewEventBus Nat) ("team.created") (0 : Nat)).1 rfl

/-- Claim C4: when handlers are registered, every one of them is spawned, the
outcome of each goroutine is computed from that handler alone (a panicking
handler cannot alter another handler's entry), and no goroutine outcome is
ever a propagated panic — the deferred `recover` turns every panic into a
logged `recovered` outcome, so nothing reaches the `Emit` caller. -/
theorem Emit_recovers_panics_per_handler {H D : Type} (bus : EventBus H)
    (event : String) (data : D) (run : H → D → HandlerResult) (hs : List H)
    (hreg : bus.handlers event = some hs) :
    ((bus.Emit event data).1.map (fun p => goBody run p.1 p.2)
        = hs.map (fun h => goBody run h data)) ∧
    (∀ h d m, goBody run h d ≠ GoroutineOutcome.propagated m) := by
  constructor
  · simp [EventBus.Emit, hreg, List.map_map, Function.comp]
  · intro h d m
    unfold goBody
    cases run h d <;> simp

/-- Witness for C4: two handlers `0` and `1` on one event, where handler `0`
panics and handler `1` returns normally; both are spawned, the outcomes are
`[recovered, completed]`, and neither outcome is a propagated panic. -/
theorem Emit_recovers_panics_per_handler_witness :
    (((((NewEventBus Nat).On ("x.e") 0).On ("x.e") 1).Emit ("x.e") (7 : Nat)).1.map
        (fun p =>
          goBody (fun h _ => if h = 0 then .panicked ("boom") else .ok) p.1 p.2)
      = [GoroutineOutcome.recovered ("boom"), GoroutineOutcome.completed]) ∧
    (∀ m, goBody (fun (h : Nat) (_ : Nat) =>
        if h = 0 then .panicked ("boom") else .ok) 0 7
      ≠ GoroutineOutcome.propagated m) := by
  have h := Emit_recovers_panics_per_handler
    ((((NewEventBus Nat).On ("x.e") 0).On ("x.e") 1)) ("x.e") (7 : Nat)
    (fun h _ => if h = 0 then .panicked ("boom") else .ok) [0, 1] (by rfl)
  exact ⟨by rw [h.1]; rfl, fun m => h.2 0 7 m⟩

/-- Claim C5: registration is additive and never deduplicated — registering
the same handler twice for the same event appends it twice, and an emit on a
bus where it was freshly registered twice invokes it exactly twice. -/
theorem On_twice_appends_twice {H : Type} [DecidableEq H] (bus : EventBus H)
    (event : String) (h : H) (data : Nat) :
    ((bus.On event h).On event h).handlers event
        = some (((bus.handlers event).getD []) ++ [h, h]) ∧
    ((((NewEventBus H).On event h).On event h).Emit event data).1.count (h, data)
        = 2 := by
  constructor
  · simp [EventBus.On]
  · simp [EventBus.On, EventBus.Emit, NewEventBus]

/-- Witness for C5: registering handler `5` twice for event `x.e` on a fresh
bus yields the slice `[5, 5]`, and emitting payload `1` invokes it twice. -/
theorem On_twice_appends_twice_witness :
    ((((NewEventBus Nat).On ("x.e") 5).On ("x.e") 5).handlers ("x.e")
        = some [5, 5]) ∧
    (((((NewEventBus Nat).On ("x.e") 5).On ("x.e") 5).Emit ("x.e") 1).1.count (5, 1)
        = 2) := by
  have h := On_twice_appends_twice (NewEventBus Nat) ("x.e") 5 1
  exact ⟨by rw [h.1]; rfl, h.2⟩

/-! ### Interleaving semantics of `Emit`'s goroutine dispatch

`Emit` iterates over the handler slice spawning one goroutine per handler and
then returns; the goroutines run under the scheduler at any later point.  The
execution is modelled as a labelled transition system: `toSpawn` is the rest
of the spawn loop, `pending` the spawned but not yet executed goroutines,
`done` the outcomes of executed goroutines, `returned` whether `Emit` has
returned to its caller. -/

structure EmitExecState (H D : Type) where
  toSpawn : List (H × D)
  pending : List (H × D)
  done : List GoroutineOutcome
  returned : Bool

/-- One scheduler step of an `Emit` execution: the emitting goroutine spawns
the next goroutine of its loop (`spawn`) or, once the loop is done, returns
to the caller (`ret`) — with no condition on `pending`, since `go` statements
are not awaited; independently, any pending goroutine may execute (`exec`),
its outcome depending only on its own handler and payload. -/
inductive EmitStep {H D : Type} (run : H → D → HandlerResult) :
    EmitExecState H D → EmitExecState H D → Prop where
  | spawn (t : H × D) (ts p d) :
      EmitStep run ⟨t :: ts, p, d, false⟩ ⟨ts, p ++ [t], d, false⟩
  | ret (p d) :
      EmitStep run ⟨[], p, d, false⟩ ⟨[], p, d, true⟩
  | exec (ts p1 t p2 d r) :
      EmitStep run ⟨ts, p1 ++ t :: p2, d, r⟩
        ⟨ts, p1 ++ p2, d ++ [goBody run t.1 t.2], r⟩

/-- Initial execution state of `bus.Emit event data`: the whole dispatch list
is still to be spawned, nothing has run, the caller has not been answered. -/
def emitInit {H D : Type} (bus : EventBus H) (event : String) (data : D) :
    EmitExecState H D :=
  ⟨(bus.Emit event data).1, [], [], false⟩

/-- The spawn loop alone moves every dispatch from `toSpawn` to `pending`. -/
theorem emitStep_spawnAll {H D : Type} (run : H → D → HandlerResult)
    (l : List (H × D)) : ∀ p d,
    Relation.ReflTransGen (EmitStep run) ⟨l, p, d, false⟩ ⟨[], p ++ l, d, false⟩ := by
  induction l with
  | nil => intro p d; simpa using Relation.ReflTransGen.refl
  | cons t ts ih =>
    intro p d
    refine Relation.ReflTransGen.head (EmitStep.spawn t ts p d) ?_
    simpa [List.append_assoc] using ih (p ++ [t]) d

/-- Claim C9: `Emit` is fire-and-forget.  (i) There is a schedule in which
`Emit` has returned to its caller while every registered handler sits in its
own spawned goroutine and none has completed — so the return never awaits
handler completion; (ii) the return transition is enabled whatever goroutines
are still pending (no handler blocks the caller); (iii) any pending goroutine
can execute at any time, whatever else is pending or already returned (no
handler blocks another handler). -/
theorem Emit_fire_and_forget {H D : Type} (bus : EventBus H) (event : String)
    (data : D) (run : H → D → HandlerResult) :
    (Relation.ReflTransGen (EmitStep run) (emitInit bus event data)
        ⟨[], (bus.Emit event data).1, [], true⟩) ∧
    (∀ p d, EmitStep run ⟨[], p, d, false⟩ ⟨[], p, d, true⟩) ∧
    (∀ ts p1 t p2 d r, EmitStep run ⟨ts, p1 ++ t :: p2, d, r⟩
        ⟨ts, p1 ++ p2, d ++ [goBody run t.1 t.2], r⟩) := by
  refine ⟨?_, fun p d => EmitStep.ret p d,
    fun ts p1 t p2 d r => EmitStep.exec ts p1 t p2 d r⟩
  have h := emitStep_spawnAll run (bus.Emit event data).1 [] []
  simp only [List.nil_append] at h
  exact Relation.ReflTransGen.tail h
    (EmitStep.ret (bus.Emit event data).1 [])

/-! ## Worker server configuration (`internal/tasks/server.go`, constants.go)

`NewServer` passes the asynq server a fixed config: concurrency 10, queue
weights `critical:6, default:3, low:1`, `StrictPriority: true`.  The asynq
broker itself is a dependency, not part of this repository, so its strict
priority discipline is modelled from the spec below. -/

def QueueCritical : String := "critical"

def QueueDefault : String := "default"

def QueueLow : String := "low"

structure AsynqConfig where
  concurrency : Nat
  queues : List (String × Nat)
  strictPriority : Bool
deriving DecidableEq

/-- The `asynq.Config` literal built inside `NewServer`. -/
def serverConfig : AsynqConfig :=
  { concurrency := 10
    queues := [(QueueCritical, 6), (QueueDefault, 3), (QueueLow, 1)]
    strictPriority := true }

/-- Modelled from the spec: the asynq library (an external dependency, absent
from the source tree) under `StrictPriority: true` always takes the next task
from the ready queue of greatest weight — "higher-weight queue always drained
first when non-empty, not merely proportionally favored".  `ready q` tells
whether queue `q` has a ready task. -/
def pickQueue (queues : List (String × Nat)) (ready : String → Bool) :
    Option String :=
  ((queues.filter (fun q => ready q.1)).foldl
    (fun best q =>
      match best with
      | none => some q
      | some b => if b.2 < q.2 then some q else some b) none).map (fun q => q.1)

/-- Claim C2: the server is configured with exactly the queues `critical`,
`default`, `low` with weights 6:3:1 and strict priority on; under the strict
discipline a ready `critical` queue is always picked, `default` is picked
only when `critical` is empty, and `low` only when both others are empty. -/
theorem NewServer_strict_priority_queues :
    serverConfig.queues = [((QueueCritical), 6), ((QueueDefault), 3), ((QueueLow), 1)] ∧
    serverConfig.strictPriority = true ∧
    (∀ ready : String → Bool, ready QueueCritical = true →
        pickQueue serverConfig.queues ready = some QueueCritical) ∧
    (∀ ready : String → Bool, ready QueueCritical = false →
        ready QueueDefault = true →
        pickQueue serverConfig.queues ready = some QueueDefault) ∧
    (∀ ready : String → Bool, ready QueueCritical = false →
        ready QueueDefault = false → ready QueueLow = true →
        pickQueue serverConfig.queues ready = some QueueLow) := by
  refine ⟨rfl, rfl, ?_, ?_, ?_⟩
  · intro ready h1
    simp only [QueueCritical] at h1
    cases h2 : ready ("default") <;> cases h3 : ready ("low") <;>
      simp [pickQueue, serverConfig, QueueCritical, QueueDefault, QueueLow,
        List.filter_cons, List.foldl_cons, List.foldl_nil, h1, h2, h3]
  · intro ready h1 h2
    simp only [QueueCritical] at h1
    simp only [QueueDefault] at h2
    cases h3 : ready ("low") <;>
      simp [pickQueue, serverConfig, QueueCritical, QueueDefault, QueueLow,
        List.filter_cons, List.foldl_cons, List.foldl_nil, h1, h2, h3]
  · intro ready h1 h2 h3
    simp only [QueueCritical] at h1
    simp only [QueueDefault] at h2
    simp only [QueueLow] at h3
    simp [pickQueue, serverConfig, QueueCritical, QueueDefault, QueueLow,
      List.filter_cons, List.foldl_cons, List.foldl_nil, h1, h2, h3]

/-- Witness for C2 at concrete readiness states: all three queues ready picks
`critical`; `critical` empty with the others ready picks `default`; only
`low` ready picks `low`. -/
theorem NewServer_strict_priority_queues_witness :
    pickQueue serverConfig.queues (fun _ => true) = some QueueCritical ∧
    pickQueue serverConfig.queues (fun s => !(s == QueueCritical))
        = some QueueDefault ∧
    pickQueue serverConfig.queues (fun s => s == QueueLow) = some QueueLow :=
  ⟨NewServer_strict_priority_queues.2.2.1 (fun _ => true) rfl,
   NewServer_strict_priority_queues.2.2.2.1 (fun s => !(s == QueueCritical))
     (by decide) (by decide),
   NewServer_strict_priority_queues.2.2.2.2 (fun s => s == QueueLow)
     (by decide) (by decide) (by decide)⟩

/-! ## Scheduler (`internal/tasks/scheduler.go`, cron.go)

The robfig cron parser (`cron.ParseStandard`) and the asynq scheduler
registry (`asynq.Scheduler.Register`) are external dependencies; both are
passed in as explicit function parameters.  Times are unix seconds. -/

/-- The fields of `asynq.TaskInfo` the cron option touches. -/
structure TaskInfo where
  nextProcessAt : Int
deriving DecidableEq

/-- A successfully parsed cron schedule, given by its next-fire-time
function (`cron.Schedule.Next`). -/
structure CronExprSchedule where
  next : Int → Int

/-- The `cronSchedule` asynq option value (cron.go). -/
structure cronSchedule where
  expr : String
deriving DecidableEq

/-- Embedding of `cronSchedule.Apply`: parse the expression with
`cron.ParseStandard`; on a parse error, fall back to
`time.Now().Add(1 * time.Hour)` (3600 seconds from now); on success, set
`NextProcessAt` to the schedule's next fire time after `now`. -/
def cronSchedule.Apply (parseStandard : String → Option CronExprSchedule)
    (s : cronSchedule) (now : Int) (opts : TaskInfo) : TaskInfo :=
  match parseStandard s.expr with
  | none => { opts with nextProcessAt := now + 3600 }
  | some sched => { opts with nextProcessAt := sched.next now }

/-- Claim C6: applying the `CronSchedule` option never fails — an expression
that does not parse silently sets the next processing time one hour from
now, and one that parses sets it to the expression's next fire time relative
to now. -/
theorem cronSchedule_Apply_fallback_or_next
    (parseStandard : String → Option CronExprSchedule) (s : cronSchedule)
    (now : Int) (opts : TaskInfo) :
    (parseStandard s.expr = none →
        (s.Apply parseStandard now opts).nextProcessAt = now + 3600) ∧
    (∀ sched, parseStandard s.expr = some sched →
        (s.Apply parseStandard now opts).nextProcessAt = sched.next now) := by
  constructor
  · intro h
    simp [cronSchedule.Apply, h]
  · intro sched h
    simp [cronSchedule.Apply, h]

/-- Witness for C6: with a parser rejecting the expression, applying at time
0 yields next processing time 3600; with a parser producing a schedule whose
next fire after `t` is `t + 60`, applying at time 0 yields 60. -/
theorem cronSchedule_Apply_fallback_or_next_witness :
    ((cronSchedule.Apply (fun _ => none) ⟨("not a cron")⟩ 0 ⟨0⟩).nextProcessAt
        = 0 + 3600) ∧
    ((cronSchedule.Apply (fun _ => some ⟨fun t => t + 60⟩) ⟨("* * * * *")⟩ 0
        ⟨0⟩).nextProcessAt = 0 + 60) :=
  ⟨(cronSchedule_Apply_fallback_or_next (fun _ => none) ⟨("not a cron")⟩ 0
      ⟨0⟩).1 rfl,
   (cronSchedule_Apply_fallback_or_next (fun _ => some ⟨fun t => t + 60⟩)
      ⟨("* * * * *")⟩ 0 ⟨0⟩).2 ⟨fun t => t + 60⟩ rfl⟩

/-- A task as built by `asynq.NewTask(taskType, payload)`: the type tag and
the raw byte payload. -/
structure AsynqTask where
  typeName : String
  payload : List Nat
deriving DecidableEq

/-- Embedding of `Scheduler.RegisterCustomTask`: call the asynq scheduler
registry (`register spec task`, returning an entry ID or an error), wrap a
registration error with the `failed to register custom task` prefix, and on
success log the entry ID and return nil — the signature is `error` only, so
the entry ID is discarded. -/
def RegisterCustomTask (register : String → AsynqTask → Except String String)
    (spec taskType : String) (payload : List Nat) : Except String Unit :=
  match register spec ⟨taskType, payload⟩ with
  | .error e => .error (("failed to register custom task: ") ++ e)
  | .ok _ => .ok ()

/-- Counterexample to claim C7: `RegisterCustomTask` does not return the new
entry ID on success.  Against two registries that assign distinct entry IDs
to the same registration, the function returns the same value — the bare
success unit — so its result cannot carry the entry ID. -/
theorem RegisterCustomTask_drops_entry_id :
    (RegisterCustomTask (fun _ _ => .ok ("entry-1")) ("@every 1m")
        ("email:send") []
      = RegisterCustomTask (fun _ _ => .ok ("entry-2")) ("@every 1m")
        ("email:send") []) ∧
    (RegisterCustomTask (fun _ _ => .ok ("entry-1")) ("@every 1m")
        ("email:send") [] = .ok ()) ∧
    ((Except.ok ("entry-1") : Except String String) ≠ .ok ("entry-2")) :=
  ⟨rfl, rfl, by intro h; exact absurd (Except.ok.inj h) (by decide)⟩

/-- Claim C7 as amended: `RegisterCustomTask` returns the bare success value
(the entry ID is only logged) when the underlying scheduler registration
succeeds, and returns the registration error wrapped with the
`failed to register custom task` prefix when it fails — in particular when
the spec does not parse as a cron expression or supported shorthand. -/
theorem RegisterCustomTask_ok_or_wrapped_error
    (register : String → AsynqTask → Except String String)
    (spec taskType : String) (payload : List Nat) :
    (∀ id, register spec ⟨taskType, payload⟩ = .ok id →
        RegisterCustomTask register spec taskType payload = .ok ()) ∧
    (∀ e, register spec ⟨taskType, payload⟩ = .error e →
        RegisterCustomTask register spec taskType payload
          = .error (("failed to register custom task: ") ++ e)) := by
  constructor
  · intro id h
    simp [RegisterCustomTask, h]
  · intro e h
    simp [RegisterCustomTask, h]

/-- Witness for C7 (amended): a registry that accepts with entry ID
`entry-1` makes `RegisterCustomTask` return the success unit, and one that
rejects the spec as an invalid schedule makes it return the wrapped error. -/
theorem RegisterCustomTask_ok_or_wrapped_error_witness :
    (RegisterCustomTask (fun _ _ => .ok ("entry-1")) ("@every 1m")
        ("email:send") [] = .ok ()) ∧
    (RegisterCustomTask (fun _ _ => .error ("invalid schedule")) ("bogus")
        ("email:send") []
      = .error (("failed to register custom task: ") ++ ("invalid schedule"))) :=
  ⟨(RegisterCustomTask_ok_or_wrapped_error (fun _ _ => .ok ("entry-1"))
      ("@every 1m") ("email:send") []).1 ("entry-1") rfl,
   (RegisterCustomTask_ok_or_wrapped_error
      (fun _ _ => .error ("invalid schedule")) ("bogus") ("email:send") []).2
      ("invalid schedule") rfl⟩

end Be0
